import Mathlib

/-!
Verification of the mail-server core (SnickerSec/mail-server) against its
natural-language specification.

The development shallowly embeds the TypeScript source:

* `src/lib/crypto.ts` — the Secret Codec (`encrypt` / `decrypt`, AES-256-GCM
  with a scrypt-derived key and an `iv:tag:ciphertext` hex blob format);
* `src/services/dkim.ts` — `getDnsRecords` and `formatDkimPublicKeyForDns`;
* `src/services/email.ts` (bundled in `src/services/monitoring.ts`) —
  `calculateNextRetry`, `isRetryableError`, `sendEmail`,
  `processEmailRetries`;
* `src/middleware/apiKeyAuth.ts` — `apiKeyAuth` and `getKeyPrefix`.

Strings are modelled as Lean `String`s; where the JavaScript code parses a
string character by character (`split('@')`, `split(':')`, `split(' ')`) we
work over the underlying `List Char` with an explicit embedding of
JavaScript's `String.prototype.split` for a single-character separator.
Bytes are `Nat`s below 256.  External library calls (node's AES-GCM cipher,
scrypt, bcrypt, nodemailer's transport, Prisma writes) are parameters of the
model; everything the repository itself computes is embedded concretely.
-/



/-! ## JavaScript `split` on a single-character separator -/

/-- Embedding of JavaScript `s.split(sep)` for a one-character separator,
over the character list of `s`.  `''.split(sep)` is `['']`, hence the base
case returns `[[]]`. -/
def splitOnSep (sep : Char) : List Char → List (List Char)
  | [] => [[]]
  | c :: rest =>
    let r := splitOnSep sep rest
    if c = sep then [] :: r
    else
      match r with
      | [] => [[c]]
      | h :: t => (c :: h) :: t

/-! ## Hex encoding (`Buffer.toString('hex')` / `Buffer.from(_, 'hex')`) -/

/-- The nibble-to-character table used by node's lowercase hex encoding. -/
def hexDigitChar (n : Nat) : Char :=
  match n with
  | 0 => '0' | 1 => '1' | 2 => '2' | 3 => '3'
  | 4 => '4' | 5 => '5' | 6 => '6' | 7 => '7'
  | 8 => '8' | 9 => '9' | 10 => 'a' | 11 => 'b'
  | 12 => 'c' | 13 => 'd' | 14 => 'e' | 15 => 'f'
  | _ => '0'

def hexCharVal (c : Char) : Option Nat :=
  if '0' ≤ c ∧ c ≤ '9' then some (c.toNat - '0'.toNat)
  else if 'a' ≤ c ∧ c ≤ 'f' then some (c.toNat - 'a'.toNat + 10)
  else if 'A' ≤ c ∧ c ≤ 'F' then some (c.toNat - 'A'.toNat + 10)
  else none

def byteToHexChars (b : Nat) : List Char :=
  [hexDigitChar (b / 16), hexDigitChar (b % 16)]

def bytesToHexChars : List Nat → List Char
  | [] => []
  | b :: rest => byteToHexChars b ++ bytesToHexChars rest

def hexCharsToBytes : List Char → Option (List Nat)
  | [] => some []
  | [_] => none
  | c1 :: c2 :: rest =>
    match hexCharVal c1, hexCharVal c2, hexCharsToBytes rest with
    | some h, some l, some bs => some ((h * 16 + l) :: bs)
    | _, _, _ => none

/-! ## Secret Codec — `src/lib/crypto.ts`

`encrypt` draws a fresh 16-byte IV, derives the 32-byte cipher key as
`crypto.scryptSync(config.encryption.key, 'salt', 32)`, runs AES-256-GCM and
returns `ivHex:tagHex:cipherHex`.  `decrypt` splits on `':'`, re-derives the
key from the same configured master secret, and deciphers, throwing if the
auth tag does not verify.

The node cipher itself is an external library.  AES-GCM is counter-mode
encryption (ciphertext byte `i` is plaintext byte `i` XOR a keystream byte
depending only on key, IV and `i`) plus a GHASH tag over the ciphertext, so
the library is modelled by a `CryptoEnv`: an arbitrary key-derivation
function, keystream and tag function.  Outputs of the external functions are
reduced mod 256, reflecting that the library returns bytes.  Plaintexts are
modelled by their UTF-8 byte sequences (node's `'utf8'` codec being the
external bijection between strings and valid byte sequences). -/

structure CryptoEnv where
  /-- `crypto.scryptSync(masterSecret, 'salt', 32)`. -/
  scryptKey : String → List Nat
  /-- CTR keystream byte: key, IV, byte index. -/
  keystream : List Nat → List Nat → Nat → Nat
  /-- GHASH auth tag: key, IV, ciphertext. -/
  authTag : List Nat → List Nat → List Nat → List Nat

/-- XOR a byte list with the keystream starting at byte index `i`. -/
def xorStream (ksb : Nat → Nat) : Nat → List Nat → List Nat
  | _, [] => []
  | i, b :: rest => (b ^^^ (ksb i % 256)) :: xorStream ksb (i + 1) rest

/-- `encrypt` from `src/lib/crypto.ts` (lines 13–24): derive the key from the
configured master secret, CTR-encrypt the plaintext bytes under the fresh
IV, compute the auth tag, and emit `ivHex:tagHex:cipherHex`. -/
def encrypt (env : CryptoEnv) (masterSecret : String) (iv ptBytes : List Nat) :
    List Char :=
  let key := env.scryptKey masterSecret
  let ct := xorStream (env.keystream key iv) 0 ptBytes
  let tag := (env.authTag key iv ct).map (· % 256)
  bytesToHexChars iv ++ ':' :: (bytesToHexChars tag ++ ':' :: bytesToHexChars ct)

/-- `decrypt` from `src/lib/crypto.ts` (lines 26–40): split the blob on
`':'` into IV, auth tag and ciphertext (destructuring takes the first three
segments), re-derive the key from the same configured master secret, verify
the tag and decipher.  `none` models the thrown exception on a malformed
blob or a failed tag check. -/
def decrypt (env : CryptoEnv) (masterSecret : String) (blob : List Char) :
    Option (List Nat) :=
  match splitOnSep ':' blob with
  | ivHex :: tagHex :: encHex :: _ =>
    match hexCharsToBytes ivHex, hexCharsToBytes tagHex, hexCharsToBytes encHex with
    | some iv, some tag, some ct =>
      let key := env.scryptKey masterSecret
      if (env.authTag key iv ct).map (· % 256) = tag then
        some (xorStream (env.keystream key iv) 0 ct)
      else none
    | _, _, _ => none
  | _ => none

def cryptoEnvW : CryptoEnv :=
  ⟨fun _ => [1, 2], fun _ _ i => i + 7, fun _ _ ct => [ct.length, 3]⟩

/-! ## Delivery Engine and Retry Scheduler — `src/services/email.ts`
(bundled in `src/services/monitoring.ts`, lines 233–515)

`sendEmail` validates the domain binding, decrypts the DKIM key, hands the
composed message to the nodemailer transport and records the outcome in the
`emailLog` table; `processEmailRetries` re-drives due `pending_retry`
records.  The Prisma store, the `decrypt` call and the transport are
external effects: the model takes the domain table as data, and the
key-decryption and transport outcomes as function parameters, and returns
alongside the mirrored `SendResult` the list of `emailLog` rows written and
the list of messages handed to the transport. -/

structure DomainRec where
  id : String
  name : String
  dkimSelector : String
  dkimPrivateKey : String
  isActive : Bool
deriving DecidableEq

inductive LogStatus
  | sent
  | pending_retry
  | failed
deriving DecidableEq

/-- A row of the `emailLog` table, with exactly the columns the service
reads and writes: the `create` calls in `sendEmail` set `domainId`,
`messageId?`, `fromEmail`, `toEmail`, `subject`, `status`, `error?`,
`retryCount`, `nextRetryAt?`; no body (`html`/`text`) or `replyTo` column
exists.  `nextRetryAt` is a millisecond timestamp. -/
structure EmailLogRec where
  domainId : String
  messageId : Option String
  fromEmail : String
  toEmail : String
  subject : String
  status : LogStatus
  error : Option String
  retryCount : Nat
  nextRetryAt : Option Nat
deriving DecidableEq

/-- The message object handed to `transporter.sendMail`.  `fromEmail`
models the `from` field (`from` is a Lean keyword). -/
structure MailMessage where
  fromEmail : String
  toEmail : String
  subject : String
  html : Option String
  text : Option String
  replyTo : Option String
deriving DecidableEq

inductive TransportOutcome
  | ok (messageId : String)
  | err (message : String)
deriving DecidableEq

/-- `to: string | string[]` in the request body. -/
inductive RecipientField
  | single (s : String)
  | multiple (l : List String)
deriving DecidableEq

structure SendEmailBody where
  fromEmail : String
  /-- the `to` field (`to` is a reserved token in Lean). -/
  toField : RecipientField
  subject : String
  html : Option String
  text : Option String
  replyTo : Option String
deriving DecidableEq

structure SendResult where
  success : Bool
  messageId : Option String
  error : Option String
  willRetry : Option Bool
  retryCount : Option Nat
deriving DecidableEq

def MAX_RETRIES : Nat := 3

def RETRY_DELAYS : List Nat := [60000, 300000, 900000]

/-- `calculateNextRetry` (lines 252–258).  `Date.now()` is the explicit
`now` parameter; `RETRY_DELAYS[retryCount] || RETRY_DELAYS[len - 1]` falls
back to the last (non-zero) delay when the index is out of range. -/
def calculateNextRetry (now retryCount : Nat) : Option Nat :=
  if MAX_RETRIES ≤ retryCount then none
  else some (now + RETRY_DELAYS.getD retryCount 900000)

def lowerChars (s : String) : List Char := s.data.map Char.toLower

def hasPatAt (l : List Char) (pat : String) (i : Nat) : Bool :=
  pat.data.isPrefixOf (l.drop i)

/-- Case-sensitive substring test (applied to already-lowercased text). -/
def containsPat (l : List Char) (pat : String) : Bool :=
  (List.range (l.length + 1)).any fun i => hasPatAt l pat i

/-- `/temporary.*failure/i` on the lowercased text: `temporary`, then any
characters other than a line terminator, then `failure`. -/
def tempFailureMatch (l : List Char) : Bool :=
  (List.range (l.length + 1)).any fun i =>
    hasPatAt l "temporary" i &&
    ((List.range (l.length + 1)).any fun k =>
      ((l.drop (i + 9)).take k).all (fun c => c ≠ '\n' && c ≠ '\r') &&
      hasPatAt l "failure" (i + 9 + k))

/-- `isRetryableError` (lines 260–273): the fixed case-insensitive pattern
list classifying a transport error as transient. -/
def isRetryableError (error : String) : Bool :=
  let l := lowerChars error
  containsPat l "connection refused" || containsPat l "timeout" ||
  containsPat l "econnreset" || containsPat l "etimedout" ||
  tempFailureMatch l || containsPat l "try again" ||
  containsPat l "service unavailable" || containsPat l "too many connections" ||
  containsPat l "rate limit"

/-- JavaScript truthiness of an optional string (`undefined` and `''` are
falsy). -/
def truthy (o : Option String) : Bool :=
  match o with
  | some s => s ≠ ""
  | none => false

/-- `Array.isArray(emailData.to) ? emailData.to : [emailData.to]`. -/
def toAddresses : RecipientField → List String
  | .single s => [s]
  | .multiple l => l

/-- `emailData.text || (emailData.html ? undefined : '')`. -/
def textFieldOf (e : SendEmailBody) : Option String :=
  if truthy e.text then e.text else if truthy e.html then none else some ""

/-- `emailData.from.split('@')[1]`: the domain part of the sender address,
`none` when the address has no `'@'`. -/
def fromDomainOf (addr : String) : Option (List Char) :=
  (splitOnSep '@' addr.data).get? 1

/-- Which control path `sendEmail` took; `transported` means the message
reached the `transporter.sendMail` call. -/
inductive SendPhase
  | domainNotFound
  | domainInactive
  | senderMismatch
  | keyDecryptFailed
  | transported (delivered : Bool)
deriving DecidableEq

def SendPhase.reachedTransport : SendPhase → Bool
  | .transported _ => true
  | _ => false

structure SendCtx where
  /-- The `domain` table consulted by `prisma.domain.findUnique`. -/
  domains : List DomainRec
  /-- Outcome of `decrypt(domain.dkimPrivateKey)`; `none` models a throw. -/
  decryptKey : String → Option String
  /-- Outcome of `transporter.sendMail`. -/
  transport : MailMessage → TransportOutcome
  /-- `Date.now()` in milliseconds. -/
  now : Nat

structure SendOutcome where
  result : SendResult
  logWrites : List EmailLogRec
  transportCalls : List MailMessage
  phase : SendPhase
deriving DecidableEq

/-- The message object built for `transporter.sendMail` in `sendEmail`
(lines 364–372): recipients normalised to an array and joined with
`', '`, and the `text` fallback `emailData.text || (emailData.html ?
undefined : '')`. -/
def composedMessage (emailData : SendEmailBody) : MailMessage :=
  ⟨emailData.fromEmail, String.intercalate ", " (toAddresses emailData.toField),
    emailData.subject, emailData.html, textFieldOf emailData, emailData.replyTo⟩

/-- `sendEmail` (lines 323–412).  Mirrors the source: look the domain up,
reject when missing or inactive, reject when `from.split('@')[1]` is not
strictly equal to `domain.name`, decrypt the DKIM key, hand the message to
the transport, and on a transport outcome create exactly one `emailLog`
row — `sent` on success; `pending_retry` (with `nextRetryAt =
calculateNextRetry(0)`) or `failed` on error, both with `retryCount: 0`. -/
def sendEmail (ctx : SendCtx) (domainId : String) (emailData : SendEmailBody) :
    SendOutcome :=
  match ctx.domains.find? (fun d => d.id = domainId) with
  | none =>
    ⟨⟨false, none, some "Domain not found", none, none⟩, [], [], .domainNotFound⟩
  | some domain =>
    if !domain.isActive then
      ⟨⟨false, none, some "Domain is not active", none, none⟩, [], [],
        .domainInactive⟩
    else if fromDomainOf emailData.fromEmail ≠ some domain.name.data then
      ⟨⟨false, none, some ("From address must use domain " ++ domain.name),
        none, none⟩, [], [], .senderMismatch⟩
    else
      match ctx.decryptKey domain.dkimPrivateKey with
      | none =>
        ⟨⟨false, none, some "Failed to decrypt DKIM key", none, none⟩, [], [],
          .keyDecryptFailed⟩
      | some _ =>
        match ctx.transport (composedMessage emailData) with
        | .ok mid =>
          ⟨⟨true, some mid, none, none, none⟩,
            [⟨domainId, some mid, emailData.fromEmail,
              (composedMessage emailData).toEmail, emailData.subject, .sent,
              none, 0, none⟩],
            [composedMessage emailData], .transported true⟩
        | .err e =>
          ⟨⟨false, none, some e, some (isRetryableError e), some 0⟩,
            [⟨domainId, none, emailData.fromEmail,
              (composedMessage emailData).toEmail, emailData.subject,
              (if isRetryableError e then .pending_retry else .failed), some e,
              0, (if isRetryableError e then calculateNextRetry ctx.now 0
                  else none)⟩],
            [composedMessage emailData], .transported false⟩

structure RetryCtx where
  decryptKey : String → Option String
  transport : MailMessage → TransportOutcome
  now : Nat

/-- What one loop iteration of `processEmailRetries` leaves behind for one
selected row: the updated row, the messages handed to the transport,
whether `decrypt` was invoked, and the `succeeded`/`failed` counter
increments. -/
structure RetryStepOutcome where
  updated : EmailLogRec
  transportCalls : List MailMessage
  decryptAttempted : Bool
  succeededDelta : Nat
  failedDelta : Nat
deriving DecidableEq

/-- The retry message built at lines 478–482: only the stored `fromEmail`,
`toEmail` and `subject` columns; no `html`, `text` or `replyTo`. -/
def retryMessage (log : EmailLogRec) : MailMessage :=
  ⟨log.fromEmail, log.toEmail, log.subject, none, none, none⟩

/-- One iteration of the `for` loop of `processEmailRetries`
(lines 439–511): force inactive-domain rows to `failed` before touching the
key or the transport, fail rows whose key no longer decrypts, otherwise
re-send and classify the outcome, incrementing `retryCount` and applying
the backoff only while `retryCount` stays below `MAX_RETRIES`. -/
def processRetryStep (ctx : RetryCtx) (domain : DomainRec) (log : EmailLogRec) :
    RetryStepOutcome :=
  if !domain.isActive then
    ⟨{ log with
        status := .failed,
        error := some "Domain is no longer active",
        nextRetryAt := none }, [], false, 0, 1⟩
  else
    match ctx.decryptKey domain.dkimPrivateKey with
    | none =>
      ⟨{ log with
          status := .failed,
          error := some "Failed to decrypt DKIM key",
          nextRetryAt := none }, [], true, 0, 1⟩
    | some _ =>
      match ctx.transport (retryMessage log) with
      | .ok mid =>
        ⟨{ log with
            status := .sent,
            messageId := some mid,
            error := none,
            nextRetryAt := none }, [retryMessage log], true, 1, 0⟩
      | .err e =>
        ⟨{ log with
            status :=
              if isRetryableError e && decide (log.retryCount + 1 < MAX_RETRIES)
              then .pending_retry else .failed,
            error := some e,
            retryCount := log.retryCount + 1,
            nextRetryAt :=
              if isRetryableError e && decide (log.retryCount + 1 < MAX_RETRIES)
              then calculateNextRetry ctx.now (log.retryCount + 1)
              else none }, [retryMessage log], true, 0, 1⟩

/-- The `findMany` filter of `processEmailRetries` (lines 423–434):
`status = 'pending_retry'` and `nextRetryAt <= now` (a row with a null
`nextRetryAt` never matches the `lte` filter). -/
def dueForRetry (now : Nat) (log : EmailLogRec) : Bool :=
  decide (log.status = .pending_retry) &&
    (match log.nextRetryAt with
     | some t => decide (t ≤ now)
     | none => false)

structure RetryBatchOutcome where
  steps : List RetryStepOutcome
  processed : Nat
  succeeded : Nat
  failed : Nat
deriving DecidableEq

/-- `processEmailRetries` (lines 418–514) over a joined
`emailLog × domain` table: select the due rows (batch of 10), drive each
through `processRetryStep`, and report the counters the function returns. -/
def processEmailRetries (ctx : RetryCtx) (db : List (DomainRec × EmailLogRec)) :
    RetryBatchOutcome :=
  let selected := (db.filter fun p => dueForRetry ctx.now p.2).take 10
  let steps := selected.map fun p => processRetryStep ctx p.1 p.2
  ⟨steps, selected.length, (steps.map (·.succeededDelta)).sum,
    (steps.map (·.failedDelta)).sum⟩

/-- `n` consecutive retry cycles re-driving the same row. -/
def iterateRetrySteps (ctx : RetryCtx) (domain : DomainRec) :
    Nat → EmailLogRec → EmailLogRec
  | 0, log => log
  | n + 1, log => iterateRetrySteps ctx domain n (processRetryStep ctx domain log).updated

/-! ## Concrete fixtures -/

def domainW : DomainRec := ⟨"d1", "b.com", "sel1", "blob1", true⟩

def emailBodyW : SendEmailBody :=
  ⟨"a@b.com", .single "r@x.com", "Hello", none, some "body", none⟩

/-- A sender whose domain part equals `b.com` up to letter case only. -/
def emailBodyUpper : SendEmailBody :=
  ⟨"a@B.com", .single "r@x.com", "Hello", none, some "body", none⟩

def sendCtxNoDomains : SendCtx := ⟨[], fun _ => some "PEMKEY", fun _ => .ok "m1", 0⟩

def sendCtxOk : SendCtx :=
  ⟨[domainW], fun _ => some "PEMKEY", fun _ => .ok "mid-1", 1000⟩

def sendCtxTimeout : SendCtx :=
  ⟨[domainW], fun _ => some "PEMKEY", fun _ => .err "connection timeout", 1000⟩

def retryCtxTimeout : RetryCtx :=
  ⟨fun _ => some "PEMKEY", fun _ => .err "connection timeout", 5000⟩

def logPendingW : EmailLogRec :=
  ⟨"d1", none, "a@b.com", "r@x.com", "Hello", .pending_retry,
    some "connection timeout", 0, some 4000⟩

/-- The SendAttempt invariant of the spec's data model: `pending_retry`
rows carry a `nextRetryAt` and a `retryCount` below `MAX_RETRIES`;
`sent` and `failed` rows carry no `nextRetryAt`. -/
def SendAttemptInvariant (r : EmailLogRec) : Prop :=
  (r.status = .pending_retry → r.nextRetryAt ≠ none ∧ r.retryCount < MAX_RETRIES) ∧
  (r.status = .sent ∨ r.status = .failed → r.nextRetryAt = none)

/-! ## C2 — transient-failure lifecycle -/

/-- The first `pending_retry` row written for `emailBodyW` when the
transport keeps timing out (`sendCtxTimeout.now = 1000`). -/
def firstFailLogW : EmailLogRec :=
  ⟨"d1", none, "a@b.com", "r@x.com", "Hello", .pending_retry,
    some "connection timeout", 0, some 61000⟩

/-! ## Key Manager DNS records — `src/services/dkim.ts` -/

structure DnsRecord where
  recordType : String
  host : String
  value : String
  ttl : Nat
deriving DecidableEq

/-- `formatDkimPublicKeyForDns` (line 72). -/
def formatDkimPublicKeyForDns (publicKey : String) : String :=
  "v=DKIM1; k=rsa; p=" ++ publicKey

/-- `domain.replace(/\./g, '-')` at line 79. -/
def domainSlugOf (domain : String) : String :=
  String.mk (domain.data.map fun c => if c = '.' then '-' else c)

/-- `getDnsRecords` (lines 76–129).  The function branches on
`config.brevo.apiKey` — process-wide configuration read at call time —
which the model passes explicitly as `brevoApiKey` (JavaScript truthiness:
absent or empty is falsy).  The returned object is modelled as an
association list in field order. -/
def getDnsRecords (brevoApiKey : Option String)
    (domain selector publicKey : String) : List (String × DnsRecord) :=
  if truthy brevoApiKey then
    [("spf", ⟨"TXT", domain, "v=spf1 include:brevo.com ~all", 3600⟩),
     ("dkim1", ⟨"CNAME", "brevo1._domainkey." ++ domain,
       "b1." ++ domainSlugOf domain ++ ".dkim.brevo.com", 300⟩),
     ("dkim2", ⟨"CNAME", "brevo2._domainkey." ++ domain,
       "b2." ++ domainSlugOf domain ++ ".dkim.brevo.com", 300⟩),
     ("dmarc", ⟨"TXT", "_dmarc." ++ domain,
       "v=DMARC1; p=none; rua=mailto:rua@dmarc.brevo.com", 3600⟩)]
  else
    [("spf", ⟨"TXT", domain, "v=spf1 a mx ~all", 3600⟩),
     ("dkim", ⟨"TXT", selector ++ "._domainkey." ++ domain,
       formatDkimPublicKeyForDns publicKey, 3600⟩),
     ("dmarc", ⟨"TXT", "_dmarc." ++ domain,
       "v=DMARC1; p=quarantine; rua=mailto:dmarc@" ++ domain, 3600⟩)]

/-! ## Credential authentication — `src/middleware/apiKeyAuth.ts`

`apiKeyAuth` parses the `Authorization` header, filters active credentials
by key prefix, scans candidates with `bcrypt.compare`, checks expiry and
domain activity, then — with no surrounding try/catch — awaits the
`lastUsedAt` update before attaching the identity to the request.  A
rejection of that awaited update therefore propagates out of `apiKeyAuth`
(surfacing as the server's generic 500 handler), modelled as `thrown`.
`bcrypt.compare` and the success of the Prisma update are external effects
carried in `AuthCtx`. -/

/-- `getKeyPrefix` (`src/lib/crypto.ts` line 63): `key.substring(0, 11)`. -/
def getKeyPrefix (key : String) : String := key.take 11

structure ApiKeyRec where
  id : String
  keyHash : String
  keyPrefix : String
  isActive : Bool
  expiresAt : Option Nat
  domainId : String
  domain : DomainRec
deriving DecidableEq

inductive AuthResult
  | granted (domainId domainName keyId : String)
  | denied (statusCode : Nat) (errorMsg : String)
  /-- an exception escapes `apiKeyAuth` (the request fails with 500). -/
  | thrown
deriving DecidableEq

structure AuthCtx where
  apiKeys : List ApiKeyRec
  /-- `bcrypt.compare(presented, storedHash)`. -/
  bcryptCompare : String → String → Bool
  /-- whether the `lastUsedAt` Prisma update resolves (`false` = it rejects). -/
  lastUsedWriteOk : Bool
  now : Nat

/-- `apiKey.expiresAt && apiKey.expiresAt < new Date()` (line 41). -/
def expiredAt (now : Nat) (expiresAt : Option Nat) : Bool :=
  match expiresAt with
  | some t => decide (t < now)
  | none => false

/-- The candidate scan of lines 36–64: first bcrypt match wins; then the
expiry and domain-activity checks; then the un-guarded `lastUsedAt`
update; then the identity is attached. -/
def findMatch (ctx : AuthCtx) (key : String) : List ApiKeyRec → AuthResult
  | [] => .denied 401 "Invalid API key"
  | k :: rest =>
    if ctx.bcryptCompare key k.keyHash then
      if expiredAt ctx.now k.expiresAt then .denied 401 "API key has expired"
      else if !k.domain.isActive then .denied 403 "Domain is not active"
      else if ctx.lastUsedWriteOk then .granted k.domainId k.domain.name k.id
      else .thrown
    else findMatch ctx key rest

/-- `apiKeyAuth` (lines 6–67): header parsing
(`authHeader.split(' ')`, scheme must be `Bearer`, key must be truthy),
prefix-indexed candidate lookup (`keyPrefix` equality plus `isActive`),
then the candidate scan. -/
def apiKeyAuth (ctx : AuthCtx) (authHeader : Option String) : AuthResult :=
  match authHeader with
  | none => .denied 401 "Missing Authorization header"
  | some h =>
    match splitOnSep ' ' h.data with
    | scheme :: keyChars :: _ =>
      if scheme ≠ "Bearer".data ∨ keyChars = [] then
        .denied 401 "Invalid Authorization format. Use: Bearer <api_key>"
      else
        findMatch ctx (String.mk keyChars) (ctx.apiKeys.filter fun kk =>
          decide (kk.keyPrefix = getKeyPrefix (String.mk keyChars)) &&
            kk.isActive)
    | _ => .denied 401 "Invalid Authorization format. Use: Bearer <api_key>"

def apiKeyRecW : ApiKeyRec :=
  ⟨"k1", "h1", "ms_abcdefgh", true, none, "d1", domainW⟩

def authCtxFailWrite : AuthCtx :=
  ⟨[apiKeyRecW],
    fun presented hash =>
      decide (presented = "ms_abcdefgh0123") && decide (hash = "h1"),
    false, 50⟩

def authCtxOkWrite : AuthCtx :=
  ⟨[apiKeyRecW],
    fun presented hash =>
      decide (presented = "ms_abcdefgh0123") && decide (hash = "h1"),
    true, 50⟩

/-! ## C10 — two concurrent retry cycles over the same attempt

`processEmailRetries` is driven by a free-running timer with no
per-attempt exclusivity: the `findMany` selection, the
`transporter.sendMail` call and the `emailLog.update` are three separate
awaited operations, each atomic against the shared store, with no row
lock, transaction, or status-conditioned update between them.  Two
overlapping cycles are modelled as two copies of that three-step program
over one shared row; an execution is a schedule interleaving their atomic
steps (`true` runs the first cycle's next step, `false` the second's). -/

structure SchedGlobal where
  record : EmailLogRec
  transportCount : Nat
deriving DecidableEq

inductive SchedPC
  /-- about to run the `findMany` selection. -/
  | beforeSelect
  /-- selection read the row; `selected` records whether it was due. -/
  | afterSelect (selected : Bool)
  /-- `sendMail` succeeded; about to run the `update` write. -/
  | beforeWrite
  | done
deriving DecidableEq

/-- One atomic step of a retry cycle restricted to a single attempt whose
domain is active, whose key decrypts, and whose transport send succeeds
(the scenario of the claim). -/
def cycleStep (now : Nat) (g : SchedGlobal) (pc : SchedPC) :
    SchedGlobal × SchedPC :=
  match pc with
  | .beforeSelect => (g, .afterSelect (dueForRetry now g.record))
  | .afterSelect selected =>
    if selected then
      ({ g with transportCount := g.transportCount + 1 }, .beforeWrite)
    else (g, .done)
  | .beforeWrite =>
    ({ g with
        record := { g.record with
          status := .sent,
          messageId := some "mid-r",
          error := none,
          nextRetryAt := none } }, .done)
  | .done => (g, .done)

/-- Run an interleaving of two cycles: `true` steps the first process,
`false` the second. -/
def runTwoCycles (now : Nat) :
    List Bool → SchedGlobal → SchedPC → SchedPC → SchedGlobal × SchedPC × SchedPC
  | [], g, pA, pB => (g, pA, pB)
  | b :: rest, g, pA, pB =>
    if b then
      runTwoCycles now rest (cycleStep now g pA).1 (cycleStep now g pA).2 pB
    else
      runTwoCycles now rest (cycleStep now g pB).1 pA (cycleStep now g pB).2

/-! ## Theorems -/

theorem splitOnSep_ne_nil (sep : Char) (l : List Char) : splitOnSep sep l ≠ [] := by
  induction l with
  | nil => simp [splitOnSep]
  | cons c rest ih =>
    simp only [splitOnSep]
    split
    · simp
    · match h : splitOnSep sep rest with
      | [] => exact absurd h ih
      | h' :: t => simp

theorem splitOnSep_no_sep (sep : Char) (a : List Char) (h : sep ∉ a) :
    splitOnSep sep a = [a] := by
  induction a with
  | nil => rfl
  | cons c rest ih =>
    have hc : c ≠ sep := fun hc => h (hc ▸ List.mem_cons_self c rest)
    have hrest : sep ∉ rest := fun hm => h (List.mem_cons_of_mem c hm)
    simp only [splitOnSep, if_neg hc, ih hrest]

theorem splitOnSep_append_sep (sep : Char) (a rest : List Char) (h : sep ∉ a) :
    splitOnSep sep (a ++ sep :: rest) = a :: splitOnSep sep rest := by
  induction a with
  | nil => simp [splitOnSep]
  | cons c a' ih =>
    have hc : c ≠ sep := fun hc => h (hc ▸ List.mem_cons_self c a')
    have ha' : sep ∉ a' := fun hm => h (List.mem_cons_of_mem c hm)
    simp only [List.cons_append, splitOnSep, if_neg hc, List.append_eq, ih ha']

theorem hexCharVal_hexDigitChar (n : Nat) (h : n < 16) :
    hexCharVal (hexDigitChar n) = some n := by
  interval_cases n <;> decide

theorem hexDigitChar_ne_colon (n : Nat) : hexDigitChar n ≠ ':' := by
  unfold hexDigitChar
  split <;> decide

theorem colon_not_mem_bytesToHexChars (bs : List Nat) :
    ':' ∉ bytesToHexChars bs := by
  induction bs with
  | nil => simp [bytesToHexChars]
  | cons b rest ih =>
    simp only [bytesToHexChars, byteToHexChars, List.cons_append, List.nil_append,
      List.mem_cons, not_or]
    exact ⟨fun h => hexDigitChar_ne_colon _ h.symm,
      fun h => hexDigitChar_ne_colon _ h.symm, ih⟩

theorem hexCharsToBytes_bytesToHexChars (bs : List Nat) (h : ∀ b ∈ bs, b < 256) :
    hexCharsToBytes (bytesToHexChars bs) = some bs := by
  induction bs with
  | nil => rfl
  | cons b rest ih =>
    have hb : b < 256 := h b (List.mem_cons_self b rest)
    have h1 : b / 16 < 16 := Nat.div_lt_of_lt_mul (by omega)
    have h2 : b % 16 < 16 := Nat.mod_lt _ (by omega)
    have hrest : ∀ x ∈ rest, x < 256 := fun x hx => h x (List.mem_cons_of_mem b hx)
    simp only [bytesToHexChars, byteToHexChars, List.cons_append, List.nil_append]
    simp only [hexCharsToBytes, hexCharVal_hexDigitChar _ h1,
      hexCharVal_hexDigitChar _ h2, ih hrest]
    congr 1
    congr 1
    omega

theorem xorStream_lt (ksb : Nat → Nat) (i : Nat) (bs : List Nat)
    (h : ∀ b ∈ bs, b < 256) : ∀ b ∈ xorStream ksb i bs, b < 256 := by
  induction bs generalizing i with
  | nil => simp [xorStream]
  | cons b rest ih =>
    intro x hx
    simp only [xorStream, List.mem_cons] at hx
    rcases hx with hx | hx
    · subst hx
      have hb : b < 256 := h b (List.mem_cons_self b rest)
      have hk : ksb i % 256 < 256 := Nat.mod_lt _ (by omega)
      have : (256 : Nat) = 2 ^ 8 := by norm_num
      rw [this] at hb hk ⊢
      exact Nat.xor_lt_two_pow hb hk
    · exact ih (i + 1) (fun x hx => h x (List.mem_cons_of_mem b hx)) x hx

theorem xorStream_xorStream (ksb : Nat → Nat) (i : Nat) (bs : List Nat) :
    xorStream ksb i (xorStream ksb i bs) = bs := by
  induction bs generalizing i with
  | nil => rfl
  | cons b rest ih =>
    simp only [xorStream, ih]
    congr 1
    rw [Nat.xor_assoc, Nat.xor_self, Nat.xor_zero]

theorem tag_bytes_lt (l : List Nat) : ∀ b ∈ l.map (· % 256), b < 256 := by
  intro b hb
  rcases List.mem_map.mp hb with ⟨x, _, rfl⟩
  exact Nat.mod_lt _ (by omega)

/-- C6: for every master secret and plaintext, `decrypt` inverts `encrypt`:
with the cipher key derived from the same master secret (scrypt, fixed salt
`'salt'`), any blob produced by `encrypt` under a fresh IV decrypts to the
original plaintext, for every behaviour of the external scrypt/AES-GCM
primitives.  Plaintexts and IVs are byte sequences (bytes < 256). -/
theorem decrypt_encrypt_roundtrip (env : CryptoEnv) (masterSecret : String)
    (iv pt : List Nat) (hiv : ∀ b ∈ iv, b < 256) (hpt : ∀ b ∈ pt, b < 256) :
    decrypt env masterSecret (encrypt env masterSecret iv pt) = some pt := by
  simp only [encrypt, decrypt]
  rw [splitOnSep_append_sep ':' _ _ (colon_not_mem_bytesToHexChars iv),
    splitOnSep_append_sep ':' _ _ (colon_not_mem_bytesToHexChars _),
    splitOnSep_no_sep ':' _ (colon_not_mem_bytesToHexChars _)]
  have hct : ∀ b ∈ xorStream (env.keystream (env.scryptKey masterSecret) iv) 0 pt,
      b < 256 := xorStream_lt _ _ _ hpt
  simp only [hexCharsToBytes_bytesToHexChars iv hiv,
    hexCharsToBytes_bytesToHexChars _ (tag_bytes_lt _),
    hexCharsToBytes_bytesToHexChars _ hct,
    eq_self_iff_true, if_true, xorStream_xorStream]

theorem decrypt_encrypt_roundtrip_witness :
    (∀ b ∈ [0, 255, 16, 1, 2, 3, 4, 5, 6, 7, 8, 9, 10, 11, 12, 13], b < 256) ∧
    (∀ b ∈ [104, 101, 108, 108, 111], b < 256) ∧
    decrypt cryptoEnvW "master"
      (encrypt cryptoEnvW "master"
        [0, 255, 16, 1, 2, 3, 4, 5, 6, 7, 8, 9, 10, 11, 12, 13]
        [104, 101, 108, 108, 111]) = some [104, 101, 108, 108, 111] :=
  ⟨by decide, by decide,
    decrypt_encrypt_roundtrip cryptoEnvW "master" _ _ (by decide) (by decide)⟩

/-! ## C1 — audit records written by `sendEmail` -/

/-- C1 (counterexample): an invocation of `sendEmail` that fails first-stage
validation (here: the domain id is not in the store) returns an error
result but writes no audit record at all — not the exactly-one record per
attempt the claim asserts for every invocation. -/
theorem sendEmail_validationFailure_noAudit_cex :
    (sendEmail sendCtxNoDomains "d1" emailBodyW).result.success = false ∧
    (sendEmail sendCtxNoDomains "d1" emailBodyW).phase = .domainNotFound ∧
    (sendEmail sendCtxNoDomains "d1" emailBodyW).logWrites.length = 0 ∧
    (sendEmail sendCtxNoDomains "d1" emailBodyW).logWrites.length ≠ 1 := by
  decide

/-- C1 (amended): `sendEmail` writes exactly one audit record per attempt
that reaches the Transport (success, transient transport failure and
permanent transport failure alike), and writes no audit record when the
attempt fails validation first (domain not found, domain inactive,
sender-domain mismatch, key-decryption failure). -/
theorem sendEmail_auditRecords (ctx : SendCtx) (domainId : String)
    (emailData : SendEmailBody) :
    (sendEmail ctx domainId emailData).logWrites.length =
      (if (sendEmail ctx domainId emailData).phase.reachedTransport then 1
       else 0) := by
  unfold sendEmail
  (repeat' split) <;> simp_all [SendPhase.reachedTransport]

/-! ## C3 — sender-domain comparison -/

/-- C3 (counterexample): the sender `a@B.com` has a domain part equal to
the Domain name `b.com` up to letter case, yet validation rejects it with
the sender-mismatch error: the comparison at line 340 is the strict `!==`,
not case-insensitive. -/
theorem senderDomain_caseSensitive_cex :
    (fromDomainOf "a@B.com").map (List.map Char.toLower) =
      some (lowerChars "b.com") ∧
    (sendEmail sendCtxOk "d1" emailBodyUpper).phase = .senderMismatch ∧
    (sendEmail sendCtxOk "d1" emailBodyUpper).result.error =
      some "From address must use domain b.com" ∧
    (sendEmail sendCtxOk "d1" emailBodyUpper).logWrites = [] := by
  decide

/-- C3 (amended): `sendEmail` compares the domain part of the `from`
address with the owning Domain's name by strict string equality: an exact
match passes validation, and any difference — including a difference of
letter case only — fails with the sender-mismatch error, non-retryably: no
audit row is written (so none is left in a retry state) and the transport
is never invoked. -/
theorem senderDomain_exactMatch (ctx : SendCtx) (domainId : String)
    (emailData : SendEmailBody) (domain : DomainRec)
    (hfind : ctx.domains.find? (fun d => d.id = domainId) = some domain)
    (hact : domain.isActive = true) :
    (fromDomainOf emailData.fromEmail ≠ some domain.name.data →
      (sendEmail ctx domainId emailData).phase = .senderMismatch ∧
      (sendEmail ctx domainId emailData).result.error =
        some ("From address must use domain " ++ domain.name) ∧
      (sendEmail ctx domainId emailData).result.willRetry = none ∧
      (sendEmail ctx domainId emailData).logWrites = [] ∧
      (sendEmail ctx domainId emailData).transportCalls = []) ∧
    (fromDomainOf emailData.fromEmail = some domain.name.data →
      (sendEmail ctx domainId emailData).phase ≠ .senderMismatch) := by
  unfold sendEmail
  rw [hfind]
  simp only [hact, Bool.not_true, Bool.false_eq_true, if_false]
  constructor
  · intro hne
    rw [if_pos hne]
    exact ⟨rfl, rfl, rfl, rfl, rfl⟩
  · intro heq
    rw [if_neg (by simp [heq])]
    split
    · simp
    · split <;> simp

/-- C3 (witness). -/
theorem senderDomain_exactMatch_witness :
    (sendEmail sendCtxOk "d1" emailBodyUpper).phase = .senderMismatch ∧
    (sendEmail sendCtxOk "d1" emailBodyUpper).logWrites = [] :=
  ⟨((senderDomain_exactMatch sendCtxOk "d1" emailBodyUpper domainW
      (by decide) (by decide)).1 (by decide)).1,
    ((senderDomain_exactMatch sendCtxOk "d1" emailBodyUpper domainW
      (by decide) (by decide)).1 (by decide)).2.2.2.1⟩

/-! ## C4 — the SendAttempt invariant is preserved by every write -/

/-- C4: every `emailLog` row created by `sendEmail` and every row update
performed by a `processEmailRetries` iteration satisfies the SendAttempt
invariant: `pending_retry` implies `nextRetryAt` is set and `retryCount <
MAX_RETRIES`; `sent` or `failed` implies `nextRetryAt` is null. -/
theorem writes_preserve_invariant :
    (∀ (ctx : SendCtx) (domainId : String) (emailData : SendEmailBody),
      ∀ r ∈ (sendEmail ctx domainId emailData).logWrites,
        SendAttemptInvariant r) ∧
    (∀ (rctx : RetryCtx) (domain : DomainRec) (log : EmailLogRec),
      SendAttemptInvariant (processRetryStep rctx domain log).updated) := by
  constructor
  · intro ctx domainId emailData r hr
    unfold sendEmail at hr
    repeat' split at hr
    all_goals simp at hr
    all_goals subst hr
    all_goals refine ⟨fun hp => ?_, fun hs => ?_⟩
    all_goals
      simp_all [calculateNextRetry, MAX_RETRIES, RETRY_DELAYS, Nat.not_le,
        ite_eq_left_iff]
  · intro rctx domain log
    unfold processRetryStep
    repeat' split
    all_goals refine ⟨fun hp => ?_, fun hs => ?_⟩
    all_goals
      simp_all [calculateNextRetry, MAX_RETRIES, RETRY_DELAYS, Nat.not_le,
        ite_eq_left_iff]
    all_goals omega

/-- C4 (witness): the row created by a first transient failure satisfies
the invariant. -/
theorem writes_preserve_invariant_witness :
    SendAttemptInvariant
      ⟨"d1", none, "a@b.com", "r@x.com", "Hello", .pending_retry,
        some "connection timeout", 0, some 61000⟩ :=
  writes_preserve_invariant.1 sendCtxTimeout "d1" emailBodyW _ (by decide)

/-! ## C5 — inactive domain at retry time -/

/-- C5: when a retry cycle picks up a SendAttempt whose owning Domain is
inactive, the row is forced directly to terminal `failed` with the
domain-inactive error and a null `nextRetryAt`, the DKIM key is not
decrypted, and the Transport is not invoked. -/
theorem inactiveDomain_retryForcedFailed (rctx : RetryCtx) (domain : DomainRec)
    (log : EmailLogRec) (hinact : domain.isActive = false) :
    processRetryStep rctx domain log =
      ⟨{ log with
          status := .failed,
          error := some "Domain is no longer active",
          nextRetryAt := none }, [], false, 0, 1⟩ := by
  unfold processRetryStep
  rw [hinact]
  rfl

/-- C5 (witness). -/
theorem inactiveDomain_retryForcedFailed_witness :
    processRetryStep retryCtxTimeout ⟨"d1", "b.com", "sel1", "blob1", false⟩
        logPendingW =
      ⟨{ logPendingW with
          status := .failed,
          error := some "Domain is no longer active",
          nextRetryAt := none }, [], false, 0, 1⟩ :=
  inactiveDomain_retryForcedFailed retryCtxTimeout
    ⟨"d1", "b.com", "sel1", "blob1", false⟩ logPendingW (by decide)

/-! ## C9 — retried messages carry only the stored columns -/

/-- C9: every message a retry cycle hands to the Transport is exactly the
projection of the stored row's `fromEmail`, `toEmail` and `subject`
columns; its `html`, `text` and `replyTo` fields are absent (the `emailLog`
row type has no body columns at all, mirroring the `create` calls in
`sendEmail`), so a retried message is transmitted without the original
submission's body content and reply-to address. -/
theorem retryTransport_onlyStoredFields (rctx : RetryCtx) (domain : DomainRec)
    (log : EmailLogRec) :
    ∀ m ∈ (processRetryStep rctx domain log).transportCalls,
      m.fromEmail = log.fromEmail ∧ m.toEmail = log.toEmail ∧
      m.subject = log.subject ∧ m.html = none ∧ m.text = none ∧
      m.replyTo = none := by
  intro m hm
  unfold processRetryStep at hm
  repeat' split at hm
  all_goals simp at hm
  all_goals subst hm
  all_goals exact ⟨rfl, rfl, rfl, rfl, rfl, rfl⟩

/-- C9 (witness). -/
theorem retryTransport_onlyStoredFields_witness :
    (retryMessage logPendingW).html = none ∧
    (retryMessage logPendingW).text = none ∧
    (retryMessage logPendingW).replyTo = none :=
  ⟨(retryTransport_onlyStoredFields retryCtxTimeout domainW logPendingW
      (retryMessage logPendingW) (by decide)).2.2.2.1,
    (retryTransport_onlyStoredFields retryCtxTimeout domainW logPendingW
      (retryMessage logPendingW) (by decide)).2.2.2.2.1,
    (retryTransport_onlyStoredFields retryCtxTimeout domainW logPendingW
      (retryMessage logPendingW) (by decide)).2.2.2.2.2⟩

/-- C2 (counterexample): on the first "connection timeout", the row is
written with `status = pending_retry` and `retryCount = 0` — not the
`retryCount = 1` the claim states — and after the retries are exhausted
the terminal row carries the transport's error text, not a distinct
`RetriesExhausted` error. -/
theorem firstAttempt_retryCount_cex :
    (sendEmail sendCtxTimeout "d1" emailBodyW).logWrites.map (fun r => r.status) =
      [.pending_retry] ∧
    (sendEmail sendCtxTimeout "d1" emailBodyW).logWrites.map
        (fun r => r.retryCount) = [0] ∧
    (sendEmail sendCtxTimeout "d1" emailBodyW).logWrites.map
        (fun r => r.retryCount) ≠ [1] ∧
    (iterateRetrySteps retryCtxTimeout domainW MAX_RETRIES firstFailLogW).status =
      .failed ∧
    (iterateRetrySteps retryCtxTimeout domainW MAX_RETRIES firstFailLogW).error =
      some "connection timeout" := by
  decide

/-- One retry iteration when the domain is active, the key decrypts, and
the transport reports error `e`. -/
theorem processRetryStep_transientErr (rctx : RetryCtx) (domain : DomainRec)
    (log : EmailLogRec) (e k : String)
    (hact : domain.isActive = true)
    (hdec : rctx.decryptKey domain.dkimPrivateKey = some k)
    (htr : rctx.transport (retryMessage log) = .err e) :
    (processRetryStep rctx domain log).updated =
      { log with
          status :=
            if isRetryableError e && decide (log.retryCount + 1 < MAX_RETRIES)
            then .pending_retry else .failed,
          error := some e,
          retryCount := log.retryCount + 1,
          nextRetryAt :=
            if isRetryableError e && decide (log.retryCount + 1 < MAX_RETRIES)
            then calculateNextRetry rctx.now (log.retryCount + 1)
            else none } := by
  unfold processRetryStep
  rw [hact, hdec, htr]
  rfl

/-- After `MAX_RETRIES` consecutive transient retry failures, a row that
started at `retryCount = 0` is terminal: `failed`, `retryCount =
MAX_RETRIES`, no `nextRetryAt`, and the last transport error recorded. -/
theorem iterate_transient_exhausts (rctx : RetryCtx) (domain : DomainRec)
    (log : EmailLogRec) (e k : String)
    (hact : domain.isActive = true)
    (hdec : rctx.decryptKey domain.dkimPrivateKey = some k)
    (htr : ∀ m, rctx.transport m = .err e)
    (hre : isRetryableError e = true)
    (hc : log.retryCount = 0) :
    (iterateRetrySteps rctx domain MAX_RETRIES log).status = .failed ∧
    (iterateRetrySteps rctx domain MAX_RETRIES log).retryCount = MAX_RETRIES ∧
    (iterateRetrySteps rctx domain MAX_RETRIES log).nextRetryAt = none ∧
    (iterateRetrySteps rctx domain MAX_RETRIES log).error = some e := by
  have hit : iterateRetrySteps rctx domain MAX_RETRIES log =
      (processRetryStep rctx domain
        ((processRetryStep rctx domain
          ((processRetryStep rctx domain log).updated)).updated)).updated := rfl
  rw [hit, processRetryStep_transientErr rctx domain log e k hact hdec (htr _),
    processRetryStep_transientErr rctx domain _ e k hact hdec (htr _),
    processRetryStep_transientErr rctx domain _ e k hact hdec (htr _)]
  simp [hre, hc, MAX_RETRIES]

/-- C2 (amended): when the Transport fails with a transient error (for
example "connection timeout") on the first send attempt, `sendEmail`
persists exactly one SendAttempt with `status = pending_retry`,
`retryCount = 0` (the counter counts completed retry cycles, not
attempts), and `nextRetryAt = now + 60000` (the first backoff interval,
1 minute); and after `MAX_RETRIES` consecutive transient retry failures
the scheduler leaves that row terminal: `status = failed`, `retryCount =
MAX_RETRIES`, `nextRetryAt = null`, with the last transport error text
recorded (there is no distinct `RetriesExhausted` error value), rather
than the row being dropped. -/
theorem transientRetryLifecycle (ctx : SendCtx) (rctx : RetryCtx)
    (domainId : String) (emailData : SendEmailBody) (domain : DomainRec)
    (e k k' : String)
    (hfind : ctx.domains.find? (fun d => d.id = domainId) = some domain)
    (hact : domain.isActive = true)
    (hmatch : fromDomainOf emailData.fromEmail = some domain.name.data)
    (hdec : ctx.decryptKey domain.dkimPrivateKey = some k)
    (htr : ∀ m, ctx.transport m = .err e)
    (hre : isRetryableError e = true)
    (hdec' : rctx.decryptKey domain.dkimPrivateKey = some k')
    (htr' : ∀ m, rctx.transport m = .err e) :
    (sendEmail ctx domainId emailData).logWrites.length = 1 ∧
    ∀ r0, (sendEmail ctx domainId emailData).logWrites = [r0] →
      r0.status = .pending_retry ∧ r0.retryCount = 0 ∧
      r0.nextRetryAt = some (ctx.now + 60000) ∧ r0.error = some e ∧
      (iterateRetrySteps rctx domain MAX_RETRIES r0).status = .failed ∧
      (iterateRetrySteps rctx domain MAX_RETRIES r0).retryCount = MAX_RETRIES ∧
      (iterateRetrySteps rctx domain MAX_RETRIES r0).nextRetryAt = none ∧
      (iterateRetrySteps rctx domain MAX_RETRIES r0).error = some e := by
  have hw : (sendEmail ctx domainId emailData).logWrites =
      [⟨domainId, none, emailData.fromEmail, (composedMessage emailData).toEmail,
        emailData.subject, .pending_retry, some e, 0, some (ctx.now + 60000)⟩] := by
    unfold sendEmail
    rw [hfind]
    simp [hact, hmatch, hdec, htr, hre, calculateNextRetry, MAX_RETRIES,
      RETRY_DELAYS]
  refine ⟨by rw [hw]; rfl, fun r0 hr0 => ?_⟩
  rw [hw] at hr0
  have hr0' : r0 = ⟨domainId, none, emailData.fromEmail,
      (composedMessage emailData).toEmail, emailData.subject, .pending_retry,
      some e, 0, some (ctx.now + 60000)⟩ := by
    injection hr0.symm
  subst hr0'
  refine ⟨rfl, rfl, rfl, rfl, ?_⟩
  exact iterate_transient_exhausts rctx domain _ e k' hact hdec' htr' hre rfl

/-- C2 (witness). -/
theorem transientRetryLifecycle_witness :
    firstFailLogW.status = .pending_retry ∧ firstFailLogW.retryCount = 0 ∧
    firstFailLogW.nextRetryAt = some (1000 + 60000) ∧
    firstFailLogW.error = some "connection timeout" ∧
    (iterateRetrySteps retryCtxTimeout domainW MAX_RETRIES firstFailLogW).status =
      .failed ∧
    (iterateRetrySteps retryCtxTimeout domainW MAX_RETRIES
      firstFailLogW).retryCount = MAX_RETRIES ∧
    (iterateRetrySteps retryCtxTimeout domainW MAX_RETRIES
      firstFailLogW).nextRetryAt = none ∧
    (iterateRetrySteps retryCtxTimeout domainW MAX_RETRIES firstFailLogW).error =
      some "connection timeout" :=
  (transientRetryLifecycle sendCtxTimeout retryCtxTimeout "d1" emailBodyW domainW
    "connection timeout" "PEMKEY" "PEMKEY" (by decide) (by decide) (by decide)
    rfl (fun _ => rfl) (by decide) rfl (fun _ => rfl)).2 firstFailLogW (by decide)

/-- C7 (counterexample): `getDnsRecords` is not a function of exactly its
three arguments: with the same three arguments, a configured Brevo API key
changes the result (the signing record becomes a pair of Brevo CNAMEs and
the selector is ignored). -/
theorem getDnsRecords_configDependent_cex :
    getDnsRecords (some "brevo-key") "mail.example.com" "sel" "PK" ≠
      getDnsRecords none "mail.example.com" "sel" "PK" ∧
    (getDnsRecords (some "brevo-key") "mail.example.com" "sel" "PK").lookup
      "dkim" = none := by
  decide

/-- C7 (amended): `getDnsRecords` is a pure, deterministic function of its
three arguments **and** the configured Brevo API key; in the default
configuration (no Brevo key) it yields, for domain `mail.example.com` and
selector `sel`, a DKIM TXT record with host
`sel._domainkey.mail.example.com` and a DMARC TXT record with host
`_dmarc.mail.example.com` — hosts derived from the full (sub)domain, not
from a bare root domain — and in general the signing host is
`selector ++ "._domainkey." ++ domain` and the reporting host
`"_dmarc." ++ domain`. -/
theorem getDnsRecords_hosts (domain selector publicKey : String) :
    (getDnsRecords none domain selector publicKey).get? 1 =
      some ("dkim", ⟨"TXT", selector ++ "._domainkey." ++ domain,
        formatDkimPublicKeyForDns publicKey, 3600⟩) ∧
    (getDnsRecords none domain selector publicKey).get? 2 =
      some ("dmarc", ⟨"TXT", "_dmarc." ++ domain,
        "v=DMARC1; p=quarantine; rua=mailto:dmarc@" ++ domain, 3600⟩) ∧
    ((getDnsRecords none "mail.example.com" "sel" publicKey).lookup "dkim").map
      (fun r => r.host) = some "sel._domainkey.mail.example.com" ∧
    ((getDnsRecords none "mail.example.com" "sel" publicKey).lookup "dmarc").map
      (fun r => r.host) = some "_dmarc.mail.example.com" := by
  refine ⟨rfl, rfl, ?_, ?_⟩ <;> rfl

/-- C8 (counterexample): with a matching, unexpired, active credential,
authentication succeeds exactly when the `lastUsedAt` write succeeds: if
that write fails, `apiKeyAuth` raises instead of granting the identity —
the update is not best-effort. -/
theorem lastUsedWrite_notBestEffort_cex :
    apiKeyAuth authCtxOkWrite (some "Bearer ms_abcdefgh0123") =
      .granted "d1" "b.com" "k1" ∧
    apiKeyAuth authCtxFailWrite (some "Bearer ms_abcdefgh0123") = .thrown ∧
    apiKeyAuth authCtxFailWrite (some "Bearer ms_abcdefgh0123") ≠
      .granted "d1" "b.com" "k1" := by
  decide

/-- C8 (amended): when the candidate scan finds a matching credential
(bcrypt hash matches, unexpired, owning domain active), the `lastUsedAt`
update is awaited without a guard on the success path: authentication
succeeds if and only if that write succeeds; if the write fails the
request fails with an unhandled error rather than being granted. -/
theorem authSuccess_requires_lastUsedWrite (ctx : AuthCtx) (key : String)
    (k : ApiKeyRec) (rest : List ApiKeyRec)
    (hsp : ' ' ∉ key.data) (hne : key ≠ "")
    (hfilter : ctx.apiKeys.filter (fun kk =>
      decide (kk.keyPrefix = getKeyPrefix key) && kk.isActive) = k :: rest)
    (hcmp : ctx.bcryptCompare key k.keyHash = true)
    (hexp : expiredAt ctx.now k.expiresAt = false)
    (hdom : k.domain.isActive = true) :
    (ctx.lastUsedWriteOk = true →
      apiKeyAuth ctx (some ("Bearer " ++ key)) =
        .granted k.domainId k.domain.name k.id) ∧
    (ctx.lastUsedWriteOk = false →
      apiKeyAuth ctx (some ("Bearer " ++ key)) = .thrown) := by
  have hparse : splitOnSep ' ' ("Bearer " ++ key).data =
      ["Bearer".data, key.data] := by
    have hd : ("Bearer " ++ key).data = "Bearer".data ++ ' ' :: key.data := by
      rw [String.data_append]
      rfl
    rw [hd, splitOnSep_append_sep ' ' _ _ (by decide),
      splitOnSep_no_sep ' ' _ hsp]
  have hne' : key.data ≠ [] := by
    intro hd
    exact hne (String.ext hd)
  have hmk : String.mk key.data = key := rfl
  simp only [apiKeyAuth, hparse, hmk]
  rw [if_neg (by simp [hne']), hfilter]
  unfold findMatch
  rw [hcmp, hexp, hdom]
  constructor <;> intro hw <;> simp [hw]

/-- C8 (witness). -/
theorem authSuccess_requires_lastUsedWrite_witness :
    apiKeyAuth authCtxOkWrite (some ("Bearer " ++ "ms_abcdefgh0123")) =
      .granted "d1" "b.com" "k1" ∧
    apiKeyAuth authCtxFailWrite (some ("Bearer " ++ "ms_abcdefgh0123")) =
      .thrown :=
  ⟨(authSuccess_requires_lastUsedWrite authCtxOkWrite "ms_abcdefgh0123"
      apiKeyRecW [] (by decide) (by decide) (by decide) (by decide) (by decide)
      (by decide)).1 rfl,
    (authSuccess_requires_lastUsedWrite authCtxFailWrite "ms_abcdefgh0123"
      apiKeyRecW [] (by decide) (by decide) (by decide) (by decide) (by decide)
      (by decide)).2 rfl⟩

/-- C10: two concurrent `processEmailRetries` cycles over the same
`pending_retry` attempt can both pass the `findMany` selection before
either writes, and then each hands the message to the Transport: the
interleaving `[A-select, B-select, A-send, A-write, B-send, B-write]`
completes both cycles with **two** transport calls for the one attempt,
not the exactly-one the claim requires — while full sequential execution
of the same two cycles makes exactly one call (the second cycle reads the
updated `sent` row and skips it).  The code has no per-attempt exclusivity
to rule the first schedule out. -/
theorem concurrentRetry_duplicateSend_cex :
    (runTwoCycles 5000 [true, false, true, true, false, false]
        ⟨logPendingW, 0⟩ .beforeSelect .beforeSelect).2.1 = .done ∧
    (runTwoCycles 5000 [true, false, true, true, false, false]
        ⟨logPendingW, 0⟩ .beforeSelect .beforeSelect).2.2 = .done ∧
    (runTwoCycles 5000 [true, false, true, true, false, false]
        ⟨logPendingW, 0⟩ .beforeSelect .beforeSelect).1.transportCount = 2 ∧
    (runTwoCycles 5000 [true, false, true, true, false, false]
        ⟨logPendingW, 0⟩ .beforeSelect .beforeSelect).1.transportCount ≠ 1 ∧
    (runTwoCycles 5000 [true, true, true, false, false, false]
        ⟨logPendingW, 0⟩ .beforeSelect .beforeSelect).1.transportCount = 1 := by
  decide
